import Mathlib

/-!
Verification of the RAW ingestion pipeline of `momentum` (`src/loader.rs`).

This file gives a shallow embedding of the RAW-image ingestion pipeline:

* `demosaic_bilinear` (loader.rs lines 244-367): bilinear CFA demosaic,
  black-level subtraction, range normalization, white-balance gain, the fixed
  3×3 color matrix, gamma, and quantization to bytes.  The Rust code computes
  in `f32`; the embedding computes in exact rationals `ℚ`, and the gamma step
  `v.powf(1.0 / 2.2)` — the single transcendental operation — is an explicit
  function parameter `gpow : ℚ → ℚ`.  Theorems that depend on concrete gamma
  values assume only the two IEEE-754 `powf` facts that hold exactly in `f32`:
  `powf 0 e = 0` and `powf 1 e = 1` for positive finite `e`.
  Rust slice indexing panics when out of bounds; the embedding returns an
  `Option`, with `none` playing the role of a panic.
* `apply_orientation` (loader.rs lines 137-148) over an image model `Img`
  whose flip/rotate operations embed the `image` crate primitives used there.
* the extension dispatch of `load_image` (lines 17-27) and the integer-payload
  check of `load_raw` (lines 88-92).
-/

/-! ## Data access: the `get` closure (loader.rs lines 271-277) -/

/-- Sensor samples are `u16`; sizes and indices are `usize`.  The claims under
study involve no wraparound, so both embed as `ℕ`.  `getQ` embeds the `get`
closure of `demosaic_bilinear`: out-of-range coordinates read as `0.0`, and an
in-range coordinate reads `input[y * width + x] as f32` — a slice access that
panics (here: `none`) when the sample buffer is shorter than the mosaic. -/
def getQ (input : List ℕ) (width height x y : ℕ) : Option ℚ :=
  if width ≤ x ∨ height ≤ y then some 0
  else (input[y * width + x]?).map (fun v => (v : ℚ))

/-! ## Per-site interpolation (loader.rs lines 285-344) -/

/-- The `(r, g, b)` float triple interpolated at site `(x, y)`, following the
`match pattern` / `match (row, col)` dispatch of the source.  Rust's `match`
on a `&str` and on a `(usize, usize)` pair is an equality dispatch, embedded
as an `if`-chain; the `(row, col)` values other than the four tile positions
are unreachable and yield `(0.0, 0.0, 0.0)` as in the source. -/
def demosaicRGB (input : List ℕ) (width height : ℕ) (pattern : String)
    (x y : ℕ) : Option (ℚ × ℚ × ℚ) :=
  let get := getQ input width height
  let row := y % 2
  let col := x % 2
  if pattern = "RGGB" then
    if row = 0 ∧ col = 0 then do
      let r ← get x y
      let g1 ← get (x-1) y
      let g2 ← get (x+1) y
      let g3 ← get x (y-1)
      let g4 ← get x (y+1)
      let b1 ← get (x-1) (y-1)
      let b2 ← get (x+1) (y-1)
      let b3 ← get (x-1) (y+1)
      let b4 ← get (x+1) (y+1)
      pure (r, (g1 + g2 + g3 + g4) / 4, (b1 + b2 + b3 + b4) / 4)
    else if row = 0 ∧ col = 1 then do
      let r1 ← get (x-1) y
      let r2 ← get (x+1) y
      let g ← get x y
      let b1 ← get x (y-1)
      let b2 ← get x (y+1)
      pure ((r1 + r2) / 2, g, (b1 + b2) / 2)
    else if row = 1 ∧ col = 0 then do
      let r1 ← get x (y-1)
      let r2 ← get x (y+1)
      let g ← get x y
      let b1 ← get (x-1) y
      let b2 ← get (x+1) y
      pure ((r1 + r2) / 2, g, (b1 + b2) / 2)
    else if row = 1 ∧ col = 1 then do
      let r1 ← get (x-1) (y-1)
      let r2 ← get (x+1) (y-1)
      let r3 ← get (x-1) (y+1)
      let r4 ← get (x+1) (y+1)
      let g1 ← get (x-1) y
      let g2 ← get (x+1) y
      let g3 ← get x (y-1)
      let g4 ← get x (y+1)
      let b ← get x y
      pure ((r1 + r2 + r3 + r4) / 4, (g1 + g2 + g3 + g4) / 4, b)
    else
      pure (0, 0, 0)
  else if pattern = "BGGR" then
    if row = 0 ∧ col = 0 then do
      let b ← get x y
      let g1 ← get (x-1) y
      let g2 ← get (x+1) y
      let g3 ← get x (y-1)
      let g4 ← get x (y+1)
      let r1 ← get (x-1) (y-1)
      let r2 ← get (x+1) (y-1)
      let r3 ← get (x-1) (y+1)
      let r4 ← get (x+1) (y+1)
      pure ((r1 + r2 + r3 + r4) / 4, (g1 + g2 + g3 + g4) / 4, b)
    else if row = 0 ∧ col = 1 then do
      let b1 ← get (x-1) y
      let b2 ← get (x+1) y
      let g ← get x y
      let r1 ← get x (y-1)
      let r2 ← get x (y+1)
      pure ((r1 + r2) / 2, g, (b1 + b2) / 2)
    else if row = 1 ∧ col = 0 then do
      let b1 ← get x (y-1)
      let b2 ← get x (y+1)
      let g ← get x y
      let r1 ← get (x-1) y
      let r2 ← get (x+1) y
      pure ((r1 + r2) / 2, g, (b1 + b2) / 2)
    else if row = 1 ∧ col = 1 then do
      let b1 ← get (x-1) (y-1)
      let b2 ← get (x+1) (y-1)
      let b3 ← get (x-1) (y+1)
      let b4 ← get (x+1) (y+1)
      let g1 ← get (x-1) y
      let g2 ← get (x+1) y
      let g3 ← get x (y-1)
      let g4 ← get x (y+1)
      let r ← get x y
      pure (r, (g1 + g2 + g3 + g4) / 4, (b1 + b2 + b3 + b4) / 4)
    else
      pure (0, 0, 0)
  else do
    let val ← get x y
    pure (val, val, val)

/-! ## Conditioning, color matrix, gamma, quantization (lines 346-363) -/

/-- Rust's saturating float-to-`u8` cast `as u8`: truncate toward zero and
clamp into `[0, 255]` (the source additionally applies `.min(255.0)` first,
kept at the call sites). -/
def f32_as_u8 (q : ℚ) : ℕ := min 255 ⌊q⌋.toNat

/-- The per-pixel tail of the loop body (lines 346-363): normalization against
black/white levels, white-balance gain, the hard-coded 3×3 matrix with its
clamps, gamma via `gpow`, and quantization.  `c` selects which of the three
bytes written at `output[idx], output[idx+1], output[idx+2]` is produced. -/
def byteOfRGB (gpow : ℚ → ℚ) (wl_r wl_g wl_b bl_r bl_g bl_b : ℚ)
    (r_gain g_gain b_gain : ℚ) (rgb : ℚ × ℚ × ℚ) (c : ℕ) : ℕ :=
  let r := rgb.1
  let g := rgb.2.1
  let b := rgb.2.2
  let range_r := wl_r - bl_r
  let range_g := wl_g - bl_g
  let range_b := wl_b - bl_b
  let r_norm := max (r - bl_r) 0 / range_r * r_gain
  let g_norm := max (g - bl_g) 0 / range_g * g_gain
  let b_norm := max (b - bl_b) 0 / range_b * b_gain
  let r_corrected := min (max (1.6 * r_norm - 0.3 * g_norm - 0.3 * b_norm) 0) 1
  let g_corrected := min (max (-0.2 * r_norm + 1.4 * g_norm - 0.2 * b_norm) 0) 1
  let b_corrected := min (max (-0.1 * r_norm - 0.3 * g_norm + 1.4 * b_norm) 0) 1
  let r_gamma := gpow r_corrected
  let g_gamma := gpow g_corrected
  let b_gamma := gpow b_corrected
  if c = 0 then f32_as_u8 (min (r_gamma * 255) 255)
  else if c = 1 then f32_as_u8 (min (g_gamma * 255) 255)
  else f32_as_u8 (min (b_gamma * 255) 255)

/-- Byte `i` of the output buffer.  The source initializes
`vec![0u8; width * height * 3]` and overwrites, for every interior pixel
`(x, y)` with `1 ≤ x ≤ width-2` and `1 ≤ y ≤ height-2`, the three bytes at
`idx = (y * width + x) * 3`; each byte is written at most once, so byte `i`
belongs to pixel `i / 3` and channel `i % 3`. -/
def byteAt (gpow : ℚ → ℚ) (input : List ℕ) (width height : ℕ)
    (pattern : String) (wl_r wl_g wl_b bl_r bl_g bl_b : ℚ)
    (r_gain g_gain b_gain : ℚ) (i : ℕ) : Option ℕ :=
  if 1 ≤ (i / 3) % width ∧ (i / 3) % width < width - 1 ∧
      1 ≤ (i / 3) / width ∧ (i / 3) / width < height - 1 then
    (demosaicRGB input width height pattern ((i / 3) % width)
        ((i / 3) / width)).map fun rgb =>
      byteOfRGB gpow wl_r wl_g wl_b bl_r bl_g bl_b r_gain g_gain b_gain
        rgb (i % 3)
  else
    some 0

/-- Embeds `demosaic_bilinear` (loader.rs lines 244-367).  The nine calibration
entries are read before the loop, in source order, and panic (`none`) when the
slices are shorter; the `u16` levels are cast to float.  A `some` result is
the full `width * height * 3`-byte buffer; `none` marks any panic that the
Rust loop would raise. -/
def demosaic_bilinear (gpow : ℚ → ℚ) (input : List ℕ) (width height : ℕ)
    (pattern : String) (whitelevels blacklevels : List ℕ)
    (wb_coeffs : List ℚ) : Option (List ℕ) := do
  let r_gain ← wb_coeffs[0]?
  let g_gain ← wb_coeffs[1]?
  let b_gain ← wb_coeffs[2]?
  let bl_r ← (blacklevels[0]? : Option ℕ)
  let bl_g ← (blacklevels[1]? : Option ℕ)
  let bl_b ← (blacklevels[2]? : Option ℕ)
  let wl_r ← (whitelevels[0]? : Option ℕ)
  let wl_g ← (whitelevels[1]? : Option ℕ)
  let wl_b ← (whitelevels[2]? : Option ℕ)
  let f := byteAt gpow input width height pattern
    (wl_r : ℚ) (wl_g : ℚ) (wl_b : ℚ) (bl_r : ℚ) (bl_g : ℚ) (bl_b : ℚ)
    r_gain g_gain b_gain
  if ∀ i ∈ List.range (width * height * 3), (f i).isSome then
    some ((List.range (width * height * 3)).map fun i => (f i).getD 0)
  else
    none

/-- Byte `i` of an optional buffer; `none` both for a failed computation and
for an out-of-range index. -/
def outAt (o : Option (List ℕ)) (i : ℕ) : Option ℕ :=
  o.bind fun l => l[i]?

/-! ## The image model and `apply_orientation` (loader.rs lines 137-148) -/

/-- A decoded image: dimensions plus a pixel function.  Pixel values are kept
abstract in `α`; only coordinates inside `width × height` are meaningful. -/
structure Img (α : Type) where
  width : ℕ
  height : ℕ
  pix : ℕ → ℕ → α

/-- Models `image::DynamicImage::fliph`: mirror across the vertical axis. -/
def Img.fliph {α : Type} (img : Img α) : Img α :=
  ⟨img.width, img.height, fun x y => img.pix (img.width - 1 - x) y⟩

/-- Models `image::DynamicImage::flipv`: mirror across the horizontal axis. -/
def Img.flipv {α : Type} (img : Img α) : Img α :=
  ⟨img.width, img.height, fun x y => img.pix x (img.height - 1 - y)⟩

/-- Models `image::DynamicImage::rotate90`: 90° clockwise; output pixel `(x, y)` is
input pixel `(y, height - 1 - x)`, dimensions swap. -/
def Img.rotate90 {α : Type} (img : Img α) : Img α :=
  ⟨img.height, img.width, fun x y => img.pix y (img.height - 1 - x)⟩

/-- Models `image::DynamicImage::rotate180`. -/
def Img.rotate180 {α : Type} (img : Img α) : Img α :=
  ⟨img.width, img.height, fun x y =>
    img.pix (img.width - 1 - x) (img.height - 1 - y)⟩

/-- Models `image::DynamicImage::rotate270`: 90° counter-clockwise; output pixel
`(x, y)` is input pixel `(width - 1 - y, x)`, dimensions swap. -/
def Img.rotate270 {α : Type} (img : Img α) : Img α :=
  ⟨img.height, img.width, fun x y => img.pix (img.width - 1 - y) x⟩

/-- Embeds `apply_orientation` (loader.rs lines 137-148): the eight EXIF cases; a
Rust `match` on `u32` literals, embedded as an equality chain with the same
catch-all `_ => img`. -/
def apply_orientation {α : Type} (img : Img α) (orientation : ℕ) : Img α :=
  if orientation = 2 then img.fliph
  else if orientation = 3 then img.rotate180
  else if orientation = 4 then img.flipv
  else if orientation = 5 then img.rotate90.fliph
  else if orientation = 6 then img.rotate90
  else if orientation = 7 then img.rotate270.fliph
  else if orientation = 8 then img.rotate270
  else img

/-- Agreement of two images on their (equal) dimensions: pixel-for-pixel
equality wherever a pixel exists. -/
def Img.eqOn {α : Type} (a b : Img α) : Prop :=
  a.width = b.width ∧ a.height = b.height ∧
    ∀ x < a.width, ∀ y < a.height, a.pix x y = b.pix x y

/-- The inverse orientation of each entry of the EXIF table (§4.5 of the
spec): every operation is an involution except that the two quarter-turns 6
and 8 invert each other. -/
def orientationInverse (k : ℕ) : ℕ :=
  if k = 6 then 8 else if k = 8 then 6 else k

/-! ## Format dispatch of `load_image` (loader.rs lines 17-27) -/

/-- ASCII lowercasing of one character, the fragment of Rust's
`str::to_lowercase` relevant to the four RAW extensions (all ASCII). -/
def asciiLowerChar (c : Char) : Char :=
  if 'A' ≤ c ∧ c ≤ 'Z' then Char.ofNat (c.toNat + 32) else c

/-- Models `str::to_lowercase` on the dispatch string. -/
def asciiLower (s : String) : String := ⟨s.data.map asciiLowerChar⟩

/-- The two decoders `load_image` can route to. -/
inductive DecoderKind : Type where
  | raw : DecoderKind
  | standard : DecoderKind
deriving DecidableEq

/-- The dispatch of `load_image` (lines 19-27): the extension, if any, is
lowercased (`unwrap_or_default` turns a missing extension into `""`) and
matched against the four RAW extensions. -/
def load_image_dispatch (ext : Option String) : DecoderKind :=
  let e := (ext.map asciiLower).getD ""
  if e = "nef" ∨ e = "cr2" ∨ e = "dng" ∨ e = "arw" then .raw
  else .standard

/-! ## The RAW payload check of `load_raw` (loader.rs lines 88-92) -/

/-- Models `rawloader::RawImageData`: integer (`Vec<u16>`) or floating-point
(`Vec<f32>`) sample payload. -/
inductive RawImageData : Type where
  | Integer : List ℕ → RawImageData
  | Float : List ℚ → RawImageData

/-- Lines 88-92 of `load_raw`: accept an integer payload, reject any other
with the error `anyhow!("Unsupported raw data format")`. -/
def load_raw_payload : RawImageData → Except String (List ℕ)
  | .Integer data => .ok data
  | .Float _ => .error "Unsupported raw data format"

/-- The error `load_image` surfaces for a given payload: `load_raw(path)?`
propagates the error value unchanged (the `?` operator attaches no context),
so the pipeline's caller sees exactly the string produced at line 91. -/
def load_image_surfaced_error (d : RawImageData) : Option String :=
  match load_raw_payload d with
  | .error e => some e
  | .ok _ => none

/-- Models `image::ImageBuffer::from_raw width height buf` for `Rgb<u8>`
(loader.rs line 106): succeeds exactly when the container holds at least
`width * height * 3` bytes, otherwise `None`. -/
def imageBuffer_from_raw (width height : ℕ) (buf : List ℕ) :
    Option (List ℕ) :=
  if width * height * 3 ≤ buf.length then some buf else none

/-! ## Safety lemmas: every access of the demosaic loop is in bounds -/

/-- Helper: a bind of total pieces is total. -/
theorem optionBind_isSome {α β : Type} {x : Option α} {f : α → Option β}
    (hx : x.isSome) (hf : ∀ a, (f a).isSome) : (x.bind f).isSome := by
  cases x with
  | none => simp at hx
  | some a => simpa using hf a

/-- The `get` closure never panics when the sample buffer covers the mosaic:
`x < width` and `y < height` force `y * width + x < width * height`. -/
theorem getQ_isSome {input : List ℕ} {width height : ℕ}
    (hlen : width * height ≤ input.length) (x y : ℕ) :
    (getQ input width height x y).isSome := by
  unfold getQ
  split_ifs with h
  · rfl
  · push_neg at h
    obtain ⟨hx, hy⟩ := h
    have h1 : y * width + x < height * width := by
      calc y * width + x < y * width + width := by omega
        _ = (y + 1) * width := (Nat.succ_mul y width).symm
        _ ≤ height * width := Nat.mul_le_mul_right width hy
    have h2 : y * width + x < input.length :=
      lt_of_lt_of_le h1 (by rwa [Nat.mul_comm] at hlen)
    simp [List.getElem?_eq_getElem h2]

/-- All interpolation branches only read through `getQ`. -/
theorem demosaicRGB_isSome {input : List ℕ} {width height : ℕ}
    (pattern : String) (x y : ℕ)
    (hlen : width * height ≤ input.length) :
    (demosaicRGB input width height pattern x y).isSome := by
  simp only [demosaicRGB]
  split_ifs <;>
    repeat
      first
      | exact rfl
      | exact Option.isSome_some
      | refine optionBind_isSome (getQ_isSome hlen _ _) fun _ => ?_

/-- No byte of the output can panic once the sample buffer covers the
mosaic. -/
theorem byteAt_isSome {input : List ℕ} {width height : ℕ} (gpow : ℚ → ℚ)
    (pattern : String) (wl_r wl_g wl_b bl_r bl_g bl_b : ℚ)
    (r_gain g_gain b_gain : ℚ) (i : ℕ)
    (hlen : width * height ≤ input.length) :
    (byteAt gpow input width height pattern wl_r wl_g wl_b bl_r bl_g bl_b
      r_gain g_gain b_gain i).isSome := by
  simp only [byteAt]
  split_ifs with h
  · simpa using demosaicRGB_isSome pattern _ _ hlen
  · rfl

/-- Computes `demosaic_bilinear` forward: once the nine calibration reads
succeed and the sample buffer covers the mosaic, the result is the pointwise
buffer. -/
theorem demosaic_bilinear_eq_map {gpow : ℚ → ℚ} {input : List ℕ}
    {width height : ℕ} {pattern : String}
    {whitelevels blacklevels : List ℕ} {wb_coeffs : List ℚ}
    {r_gain g_gain b_gain : ℚ} {bl_r bl_g bl_b wl_r wl_g wl_b : ℕ}
    (hwb0 : wb_coeffs[0]? = some r_gain)
    (hwb1 : wb_coeffs[1]? = some g_gain)
    (hwb2 : wb_coeffs[2]? = some b_gain)
    (hbl0 : blacklevels[0]? = some bl_r)
    (hbl1 : blacklevels[1]? = some bl_g)
    (hbl2 : blacklevels[2]? = some bl_b)
    (hwl0 : whitelevels[0]? = some wl_r)
    (hwl1 : whitelevels[1]? = some wl_g)
    (hwl2 : whitelevels[2]? = some wl_b)
    (hlen : width * height ≤ input.length) :
    demosaic_bilinear gpow input width height pattern whitelevels
        blacklevels wb_coeffs =
      some ((List.range (width * height * 3)).map fun i =>
        (byteAt gpow input width height pattern (wl_r : ℚ) (wl_g : ℚ)
          (wl_b : ℚ) (bl_r : ℚ) (bl_g : ℚ) (bl_b : ℚ)
          r_gain g_gain b_gain i).getD 0) := by
  simp only [demosaic_bilinear, bind, hwb0, hwb1, hwb2, hbl0, hbl1, hbl2,
    hwl0, hwl1, hwl2, Option.some_bind]
  rw [if_pos]
  intro i _
  exact byteAt_isSome gpow pattern _ _ _ _ _ _ _ _ _ i hlen

/-- Positional-argument restatement of `demosaic_bilinear_eq_map`, for
instantiating at fully concrete inputs. -/
theorem demosaic_bilinear_eq_map' (gpow : ℚ → ℚ) (input : List ℕ)
    (width height : ℕ) (pattern : String)
    (whitelevels blacklevels : List ℕ) (wb_coeffs : List ℚ)
    (r_gain g_gain b_gain : ℚ) (bl_r bl_g bl_b wl_r wl_g wl_b : ℕ)
    (hwb0 : wb_coeffs[0]? = some r_gain)
    (hwb1 : wb_coeffs[1]? = some g_gain)
    (hwb2 : wb_coeffs[2]? = some b_gain)
    (hbl0 : blacklevels[0]? = some bl_r)
    (hbl1 : blacklevels[1]? = some bl_g)
    (hbl2 : blacklevels[2]? = some bl_b)
    (hwl0 : whitelevels[0]? = some wl_r)
    (hwl1 : whitelevels[1]? = some wl_g)
    (hwl2 : whitelevels[2]? = some wl_b)
    (hlen : width * height ≤ input.length) :
    demosaic_bilinear gpow input width height pattern whitelevels
        blacklevels wb_coeffs =
      some ((List.range (width * height * 3)).map fun i =>
        (byteAt gpow input width height pattern (wl_r : ℚ) (wl_g : ℚ)
          (wl_b : ℚ) (bl_r : ℚ) (bl_g : ℚ) (bl_b : ℚ)
          r_gain g_gain b_gain i).getD 0) :=
  demosaic_bilinear_eq_map hwb0 hwb1 hwb2 hbl0 hbl1 hbl2 hwl0 hwl1 hwl2 hlen

/-- Inverts `demosaic_bilinear`: a `some` result forces the nine calibration
reads to succeed and is the pointwise buffer for the values they return. -/
theorem demosaic_bilinear_some_elim {gpow : ℚ → ℚ} {input : List ℕ}
    {width height : ℕ} {pattern : String}
    {whitelevels blacklevels : List ℕ} {wb_coeffs : List ℚ}
    {out : List ℕ}
    (h : demosaic_bilinear gpow input width height pattern whitelevels
      blacklevels wb_coeffs = some out) :
    ∃ (r_gain g_gain b_gain : ℚ) (bl_r bl_g bl_b wl_r wl_g wl_b : ℕ),
      wb_coeffs[0]? = some r_gain ∧ wb_coeffs[1]? = some g_gain ∧
      wb_coeffs[2]? = some b_gain ∧ blacklevels[0]? = some bl_r ∧
      blacklevels[1]? = some bl_g ∧ blacklevels[2]? = some bl_b ∧
      whitelevels[0]? = some wl_r ∧ whitelevels[1]? = some wl_g ∧
      whitelevels[2]? = some wl_b ∧
      out = (List.range (width * height * 3)).map fun i =>
        (byteAt gpow input width height pattern (wl_r : ℚ) (wl_g : ℚ)
          (wl_b : ℚ) (bl_r : ℚ) (bl_g : ℚ) (bl_b : ℚ)
          r_gain g_gain b_gain i).getD 0 := by
  simp only [demosaic_bilinear, bind] at h
  cases hwb0 : wb_coeffs[0]? with
  | none => rw [hwb0, Option.none_bind] at h; exact Option.noConfusion h
  | some r_gain =>
  rw [hwb0, Option.some_bind] at h
  cases hwb1 : wb_coeffs[1]? with
  | none => rw [hwb1, Option.none_bind] at h; exact Option.noConfusion h
  | some g_gain =>
  rw [hwb1, Option.some_bind] at h
  cases hwb2 : wb_coeffs[2]? with
  | none => rw [hwb2, Option.none_bind] at h; exact Option.noConfusion h
  | some b_gain =>
  rw [hwb2, Option.some_bind] at h
  cases hbl0 : blacklevels[0]? with
  | none => rw [hbl0, Option.none_bind] at h; exact Option.noConfusion h
  | some bl_r =>
  rw [hbl0, Option.some_bind] at h
  cases hbl1 : blacklevels[1]? with
  | none => rw [hbl1, Option.none_bind] at h; exact Option.noConfusion h
  | some bl_g =>
  rw [hbl1, Option.some_bind] at h
  cases hbl2 : blacklevels[2]? with
  | none => rw [hbl2, Option.none_bind] at h; exact Option.noConfusion h
  | some bl_b =>
  rw [hbl2, Option.some_bind] at h
  cases hwl0 : whitelevels[0]? with
  | none => rw [hwl0, Option.none_bind] at h; exact Option.noConfusion h
  | some wl_r =>
  rw [hwl0, Option.some_bind] at h
  cases hwl1 : whitelevels[1]? with
  | none => rw [hwl1, Option.none_bind] at h; exact Option.noConfusion h
  | some wl_g =>
  rw [hwl1, Option.some_bind] at h
  cases hwl2 : whitelevels[2]? with
  | none => rw [hwl2, Option.none_bind] at h; exact Option.noConfusion h
  | some wl_b =>
  rw [hwl2, Option.some_bind] at h
  refine ⟨r_gain, g_gain, b_gain, bl_r, bl_g, bl_b, wl_r, wl_g, wl_b,
    rfl, rfl, rfl, rfl, rfl, rfl, rfl, rfl, rfl, ?_⟩
  split at h
  · exact (Option.some_inj.mp h).symm
  · exact Option.noConfusion h

/-! ## Claims about the orientation transform -/

/-- A concrete 10×20 image used to instantiate the orientation claims. -/
def testImg : Img ℕ := ⟨10, 20, fun x y => x + 10 * y⟩

/-- Claim C4: `apply_orientation` implements the canonical EXIF orientation
table: 1 is the identity, 2 the horizontal flip, 3 the 180° rotation, 4 the
vertical flip, 5 a 90° clockwise rotation followed by a horizontal flip, 6 a
90° clockwise rotation, 7 a 270° clockwise rotation followed by a horizontal
flip, 8 a 270° clockwise rotation; every other value acts as 1; and the
output dimensions are the input dimensions swapped exactly for 5–8. -/
theorem C4_apply_orientation_table {α : Type} (img : Img α) :
    apply_orientation img 1 = img ∧
    apply_orientation img 2 = img.fliph ∧
    apply_orientation img 3 = img.rotate180 ∧
    apply_orientation img 4 = img.flipv ∧
    apply_orientation img 5 = img.rotate90.fliph ∧
    apply_orientation img 6 = img.rotate90 ∧
    apply_orientation img 7 = img.rotate270.fliph ∧
    apply_orientation img 8 = img.rotate270 ∧
    (∀ k : ℕ, ¬(2 ≤ k ∧ k ≤ 8) → apply_orientation img k = img) ∧
    (∀ k : ℕ,
      ((apply_orientation img k).width, (apply_orientation img k).height) =
        if 5 ≤ k ∧ k ≤ 8 then (img.height, img.width)
        else (img.width, img.height)) := by
  refine ⟨rfl, rfl, rfl, rfl, rfl, rfl, rfl, rfl, ?_, ?_⟩
  · intro k hk
    have e2 : k ≠ 2 := by omega
    have e3 : k ≠ 3 := by omega
    have e4 : k ≠ 4 := by omega
    have e5 : k ≠ 5 := by omega
    have e6 : k ≠ 6 := by omega
    have e7 : k ≠ 7 := by omega
    have e8 : k ≠ 8 := by omega
    unfold apply_orientation
    rw [if_neg e2, if_neg e3, if_neg e4, if_neg e5, if_neg e6, if_neg e7,
      if_neg e8]
  · intro k
    by_cases h9 : k ≤ 8
    · interval_cases k <;>
        simp [apply_orientation, Img.fliph, Img.flipv, Img.rotate90,
          Img.rotate180, Img.rotate270]
    · have e2 : k ≠ 2 := by omega
      have e3 : k ≠ 3 := by omega
      have e4 : k ≠ 4 := by omega
      have e5 : k ≠ 5 := by omega
      have e6 : k ≠ 6 := by omega
      have e7 : k ≠ 7 := by omega
      have e8 : k ≠ 8 := by omega
      have e58 : ¬(5 ≤ k ∧ k ≤ 8) := by omega
      unfold apply_orientation
      rw [if_neg e2, if_neg e3, if_neg e4, if_neg e5, if_neg e6, if_neg e7,
        if_neg e8, if_neg e58]

/-- Witness for C4: the out-of-table value 11 acts as the identity. -/
theorem C4_apply_orientation_table_witness :
    apply_orientation testImg 11 = testImg :=
  (C4_apply_orientation_table testImg).2.2.2.2.2.2.2.2.1 11 (by omega)

/-- Claim C5: Orientation 1 is a bitwise identity; 3 twice is the identity; 6
four times is the identity; 6 then 8 is the identity; and for every
`k ∈ 1..=8`, applying `k` and then its inverse from the table restores
pixel-for-pixel equality. -/
theorem C5_orientation_roundtrip {α : Type} (img : Img α) :
    apply_orientation img 1 = img ∧
    Img.eqOn (apply_orientation (apply_orientation img 3) 3) img ∧
    Img.eqOn (apply_orientation (apply_orientation
      (apply_orientation (apply_orientation img 6) 6) 6) 6) img ∧
    Img.eqOn (apply_orientation (apply_orientation img 6) 8) img ∧
    ∀ k : ℕ, 1 ≤ k → k ≤ 8 →
      Img.eqOn
        (apply_orientation (apply_orientation img k) (orientationInverse k))
        img := by
  refine ⟨rfl, ⟨rfl, rfl, fun x hx y hy => ?_⟩,
    ⟨rfl, rfl, fun x hx y hy => ?_⟩, ⟨rfl, rfl, fun x hx y hy => ?_⟩, ?_⟩
  · simp only [apply_orientation, Img.rotate180] at hx hy ⊢
    simp at hx hy ⊢
    exact congr_arg₂ img.pix (by omega) (by omega)
  · simp only [apply_orientation, Img.rotate90] at hx hy ⊢
    simp at hx hy ⊢
    exact congr_arg₂ img.pix (by omega) (by omega)
  · simp only [apply_orientation, Img.rotate90, Img.rotate270] at hx hy ⊢
    simp at hx hy ⊢
    exact congr_arg₂ img.pix (by omega) (by omega)
  · intro k hk1 hk8
    interval_cases k <;>
      refine ⟨rfl, rfl, fun x hx y hy => ?_⟩ <;>
      simp [apply_orientation, orientationInverse, Img.fliph, Img.flipv,
        Img.rotate90, Img.rotate180, Img.rotate270] at hx hy ⊢ <;>
      exact congr_arg₂ img.pix (by omega) (by omega)

/-- Witness for C5: the 6-then-8 round trip of the concrete 10×20 image. -/
theorem C5_orientation_roundtrip_witness :
    Img.eqOn
      (apply_orientation (apply_orientation testImg 6) (orientationInverse 6))
      testImg :=
  (C5_orientation_roundtrip testImg).2.2.2.2 6 (by omega) (by omega)

/-! ## Claims about format dispatch and the RAW payload error -/

/-- Claim C7: `load_image` dispatches on the lowercased extension: exactly
`nef`, `cr2`, `dng`, `arw` (in any letter case) go to the RAW decoder; any
other extension, or a missing extension, goes to the standard decoder. -/
theorem C7_extension_dispatch :
    (∀ e : String, load_image_dispatch (some e) = DecoderKind.raw ↔
      (asciiLower e = "nef" ∨ asciiLower e = "cr2" ∨
        asciiLower e = "dng" ∨ asciiLower e = "arw")) ∧
    (∀ e : String, load_image_dispatch (some e) = DecoderKind.standard ↔
      ¬(asciiLower e = "nef" ∨ asciiLower e = "cr2" ∨
        asciiLower e = "dng" ∨ asciiLower e = "arw")) ∧
    load_image_dispatch none = DecoderKind.standard := by
  refine ⟨fun e => ?_, fun e => ?_, rfl⟩
  · simp only [load_image_dispatch, Option.map_some', Option.getD_some]
    split_ifs with h
    · exact iff_of_true rfl h
    · exact iff_of_false (by simp) h
  · simp only [load_image_dispatch, Option.map_some', Option.getD_some]
    split_ifs with h
    · exact iff_of_false (by simp) (not_not_intro h)
    · exact iff_of_true rfl h

/-- Counterexample to claim C6: On a floating-point payload the error the pipeline
surfaces is the bare string of loader.rs line 91; no stage name `"raw_decode"`
occurs anywhere in it, so the error is not tagged with a stage. -/
theorem C6_no_stage_tag_counterexample :
    load_image_surfaced_error (RawImageData.Float []) =
        some "Unsupported raw data format" ∧
      ¬ ("raw_decode".data <:+: "Unsupported raw data format".data) :=
  ⟨rfl, by decide⟩

/-- Amended claim C6: When the RAW payload is not an integer sample array,
`load_raw` returns an error, and the pipeline surfaces it unchanged as the
string `"Unsupported raw data format"` with no stage tag attached. -/
theorem C6_float_payload_error (d : List ℚ) :
    load_raw_payload (RawImageData.Float d) =
        Except.error "Unsupported raw data format" ∧
      load_image_surfaced_error (RawImageData.Float d) =
        some "Unsupported raw data format" :=
  ⟨rfl, rfl⟩

/-! ## Claims about the demosaic stage -/

/-- Byte `i` of a successfully produced buffer of pointwise bytes. -/
theorem outAt_map_range {f : ℕ → Option ℕ} {n i : ℕ} (h : i < n) :
    outAt (some ((List.range n).map fun j => (f j).getD 0)) i =
      some ((f i).getD 0) := by
  simp [outAt, List.getElem?_map, List.getElem?_range h]

/-- The 4×4 pure-blue RGGB mosaic of the source's `test_color_rendering`:
1000 at the four B sites `(1,1), (3,1), (1,3), (3,3)` (odd row, odd column),
0 elsewhere, in row-major order. -/
def pureBlueMosaic : List ℕ :=
  [0, 0, 0, 0,
   0, 1000, 0, 1000,
   0, 0, 0, 0,
   0, 1000, 0, 1000]

/-- Claim C1: On the 4×4 pure-blue RGGB mosaic with black levels 0, white
levels 1000 and unit white-balance gains, the output at interior pixel
`(1,1)` — bytes `15, 16, 17` since `idx = (1*4+1)*3` — is `(0, 0, 255)`.
Stated for every gamma function agreeing with `powf` at the only two
arguments that occur, `0` and `1`, where IEEE-754 `powf` is exact. -/
theorem C1_pure_blue_rggb (gpow : ℚ → ℚ) (h0 : gpow 0 = 0)
    (h1 : gpow 1 = 1) :
    outAt (demosaic_bilinear gpow pureBlueMosaic 4 4 "RGGB"
        [1000, 1000, 1000, 1000] [0, 0, 0, 0] [1, 1, 1, 1]) 15 = some 0 ∧
    outAt (demosaic_bilinear gpow pureBlueMosaic 4 4 "RGGB"
        [1000, 1000, 1000, 1000] [0, 0, 0, 0] [1, 1, 1, 1]) 16 = some 0 ∧
    outAt (demosaic_bilinear gpow pureBlueMosaic 4 4 "RGGB"
        [1000, 1000, 1000, 1000] [0, 0, 0, 0] [1, 1, 1, 1]) 17 = some 255 := by
  have hrgb : demosaicRGB pureBlueMosaic 4 4 "RGGB" 1 1 = some (0, 0, 1000) := by
    norm_num [demosaicRGB, getQ, pureBlueMosaic]
  have hmap := demosaic_bilinear_eq_map' gpow pureBlueMosaic 4 4 "RGGB"
    [1000, 1000, 1000, 1000] [0, 0, 0, 0] [1, 1, 1, 1] 1 1 1 0 0 0
    1000 1000 1000 rfl rfl rfl rfl rfl rfl rfl rfl rfl
    (by norm_num [pureBlueMosaic])
  rw [hmap]
  refine ⟨?_, ?_, ?_⟩
  · rw [outAt_map_range (by norm_num)]
    unfold byteAt
    rw [if_pos (by norm_num)]
    norm_num only []
    rw [hrgb, Option.map_some']
    simp only [byteOfRGB]
    rw [if_pos (by norm_num)]
    norm_num [h0, f32_as_u8]
  · rw [outAt_map_range (by norm_num)]
    unfold byteAt
    rw [if_pos (by norm_num)]
    norm_num only []
    rw [hrgb, Option.map_some']
    simp only [byteOfRGB]
    rw [if_neg (by norm_num), if_pos (by norm_num)]
    norm_num [h0, f32_as_u8]
  · rw [outAt_map_range (by norm_num)]
    unfold byteAt
    rw [if_pos (by norm_num)]
    norm_num only []
    rw [hrgb, Option.map_some']
    simp only [byteOfRGB]
    rw [if_neg (by norm_num), if_neg (by norm_num)]
    norm_num [h1, f32_as_u8]

/-- Witness for C1 at the concrete gamma `id`, which agrees with
`powf · (1/2.2)` at `0` and `1`. -/
theorem C1_pure_blue_rggb_witness :
    outAt (demosaic_bilinear id pureBlueMosaic 4 4 "RGGB"
        [1000, 1000, 1000, 1000] [0, 0, 0, 0] [1, 1, 1, 1]) 17 = some 255 :=
  (C1_pure_blue_rggb id rfl rfl).2.2

/-- Claim C2: For every mosaic satisfying the data model (positive dimensions,
`width · height` samples, four calibration entries per array), the demosaic
returns a buffer of exactly `width * height * 3` bytes, every byte of the
outermost one-pixel ring of pixels is zero, and a 2×2 mosaic yields the
all-zero buffer. -/
theorem C2_output_size_and_border (gpow : ℚ → ℚ) (input : List ℕ)
    (width height : ℕ) (pattern : String)
    (whitelevels blacklevels : List ℕ) (wb_coeffs : List ℚ)
    (_hw : 0 < width) (_hh : 0 < height)
    (hlen : input.length = width * height)
    (hwl : 4 ≤ whitelevels.length) (hbl : 4 ≤ blacklevels.length)
    (hwb : 4 ≤ wb_coeffs.length) :
    ∃ out, demosaic_bilinear gpow input width height pattern whitelevels
        blacklevels wb_coeffs = some out ∧
      out.length = width * height * 3 ∧
      (∀ i < width * height * 3,
        ((i / 3) % width = 0 ∨ (i / 3) % width = width - 1 ∨
          (i / 3) / width = 0 ∨ (i / 3) / width = height - 1) →
        out[i]? = some 0) ∧
      (width = 2 → height = 2 → out = List.replicate 12 0) := by
  refine ⟨_, demosaic_bilinear_eq_map
    (List.getElem?_eq_getElem (lt_of_lt_of_le (by norm_num) hwb))
    (List.getElem?_eq_getElem (lt_of_lt_of_le (by norm_num) hwb))
    (List.getElem?_eq_getElem (lt_of_lt_of_le (by norm_num) hwb))
    (List.getElem?_eq_getElem (lt_of_lt_of_le (by norm_num) hbl))
    (List.getElem?_eq_getElem (lt_of_lt_of_le (by norm_num) hbl))
    (List.getElem?_eq_getElem (lt_of_lt_of_le (by norm_num) hbl))
    (List.getElem?_eq_getElem (lt_of_lt_of_le (by norm_num) hwl))
    (List.getElem?_eq_getElem (lt_of_lt_of_le (by norm_num) hwl))
    (List.getElem?_eq_getElem (lt_of_lt_of_le (by norm_num) hwl))
    (le_of_eq hlen.symm), ?_, ?_, ?_⟩
  · simp
  · intro i hi hring
    simp only [List.getElem?_map, List.getElem?_range hi, Option.map_some']
    unfold byteAt
    rw [if_neg (by
      generalize (i / 3) % width = a at hring ⊢
      generalize (i / 3) / width = b at hring ⊢
      omega)]
    rfl
  · intro hw2 hh2
    subst hw2; subst hh2
    refine List.eq_replicate_iff.mpr ⟨by simp, ?_⟩
    intro b hb
    rw [List.mem_map] at hb
    obtain ⟨j, _, rfl⟩ := hb
    unfold byteAt
    rw [if_neg (by omega)]
    rfl

/-- Witness for C2: the 2×2 all-zero RGGB mosaic. -/
theorem C2_output_size_and_border_witness :
    ∃ out, demosaic_bilinear id [0, 0, 0, 0] 2 2 "RGGB" [1, 1, 1, 1]
        [0, 0, 0, 0] [1, 1, 1, 1] = some out ∧
      out.length = 2 * 2 * 3 ∧
      (∀ i < 2 * 2 * 3,
        ((i / 3) % 2 = 0 ∨ (i / 3) % 2 = 2 - 1 ∨
          (i / 3) / 2 = 0 ∨ (i / 3) / 2 = 2 - 1) →
        out[i]? = some 0) ∧
      (2 = 2 → 2 = 2 → out = List.replicate 12 0) :=
  C2_output_size_and_border id [0, 0, 0, 0] 2 2 "RGGB" [1, 1, 1, 1]
    [0, 0, 0, 0] [1, 1, 1, 1] (by norm_num) (by norm_num) (by norm_num)
    (by norm_num) (by norm_num) (by norm_num)

/-- Claim C8: Under the data-model preconditions — samples cover the mosaic,
positive dimensions, at least four entries in each calibration array, white
above black per channel — `demosaic_bilinear` returns normally: no slice
access is out of bounds (division, in `f32`, cannot fail). -/
theorem C8_demosaic_no_panic (gpow : ℚ → ℚ) (input : List ℕ)
    (width height : ℕ) (pattern : String)
    (whitelevels blacklevels : List ℕ) (wb_coeffs : List ℚ)
    (_hw : 0 < width) (_hh : 0 < height)
    (hlen : input.length = width * height)
    (hwl : 4 ≤ whitelevels.length) (hbl : 4 ≤ blacklevels.length)
    (hwb : 4 ≤ wb_coeffs.length)
    (_hrange : ∀ c < 4, blacklevels.getD c 0 < whitelevels.getD c 0) :
    (demosaic_bilinear gpow input width height pattern whitelevels
      blacklevels wb_coeffs).isSome := by
  rw [demosaic_bilinear_eq_map
    (List.getElem?_eq_getElem (lt_of_lt_of_le (by norm_num) hwb))
    (List.getElem?_eq_getElem (lt_of_lt_of_le (by norm_num) hwb))
    (List.getElem?_eq_getElem (lt_of_lt_of_le (by norm_num) hwb))
    (List.getElem?_eq_getElem (lt_of_lt_of_le (by norm_num) hbl))
    (List.getElem?_eq_getElem (lt_of_lt_of_le (by norm_num) hbl))
    (List.getElem?_eq_getElem (lt_of_lt_of_le (by norm_num) hbl))
    (List.getElem?_eq_getElem (lt_of_lt_of_le (by norm_num) hwl))
    (List.getElem?_eq_getElem (lt_of_lt_of_le (by norm_num) hwl))
    (List.getElem?_eq_getElem (lt_of_lt_of_le (by norm_num) hwl))
    (le_of_eq hlen.symm)]
  rfl

/-- Witness for C8: the 4×4 pure-blue mosaic with its test calibration. -/
theorem C8_demosaic_no_panic_witness :
    (demosaic_bilinear id pureBlueMosaic 4 4 "RGGB" [1000, 1000, 1000, 1000]
      [0, 0, 0, 0] [1, 1, 1, 1]).isSome :=
  C8_demosaic_no_panic id pureBlueMosaic 4 4 "RGGB" [1000, 1000, 1000, 1000]
    [0, 0, 0, 0] [1, 1, 1, 1] (by norm_num) (by norm_num)
    (by norm_num [pureBlueMosaic]) (by norm_num) (by norm_num) (by norm_num)
    (by decide)

/-- Claim C9: The demosaic reads only entries 0–2 of the white-level,
black-level and white-balance arrays: inputs agreeing there produce
identical results. -/
theorem C9_calibration_tail_irrelevant (gpow : ℚ → ℚ) (input : List ℕ)
    (width height : ℕ) (pattern : String)
    (whitelevels whitelevels' blacklevels blacklevels' : List ℕ)
    (wb_coeffs wb_coeffs' : List ℚ)
    (hwb0 : wb_coeffs[0]? = wb_coeffs'[0]?)
    (hwb1 : wb_coeffs[1]? = wb_coeffs'[1]?)
    (hwb2 : wb_coeffs[2]? = wb_coeffs'[2]?)
    (hbl0 : blacklevels[0]? = blacklevels'[0]?)
    (hbl1 : blacklevels[1]? = blacklevels'[1]?)
    (hbl2 : blacklevels[2]? = blacklevels'[2]?)
    (hwl0 : whitelevels[0]? = whitelevels'[0]?)
    (hwl1 : whitelevels[1]? = whitelevels'[1]?)
    (hwl2 : whitelevels[2]? = whitelevels'[2]?) :
    demosaic_bilinear gpow input width height pattern whitelevels
        blacklevels wb_coeffs =
      demosaic_bilinear gpow input width height pattern whitelevels'
        blacklevels' wb_coeffs' := by
  simp only [demosaic_bilinear]
  rw [hwb0, hwb1, hwb2, hbl0, hbl1, hbl2, hwl0, hwl1, hwl2]

/-- Witness for C9: calibration arrays that differ only at index 3. -/
theorem C9_calibration_tail_irrelevant_witness :
    demosaic_bilinear id pureBlueMosaic 4 4 "RGGB" [1000, 1000, 1000, 7]
        [0, 0, 0, 9] [1, 1, 1, 5] =
      demosaic_bilinear id pureBlueMosaic 4 4 "RGGB" [1000, 1000, 1000, 1000]
        [0, 0, 0, 0] [1, 1, 1, 1] :=
  C9_calibration_tail_irrelevant id pureBlueMosaic 4 4 "RGGB" _ _ _ _ _ _
    rfl rfl rfl rfl rfl rfl rfl rfl rfl

/-- Claim C10: A successful demosaic is always exactly `width * height * 3`
bytes, so the `ImageBuffer::from_raw` call of `load_raw` (line 106) cannot
return `None`: the `"Failed to create image buffer"` branch is dead. -/
theorem C10_from_raw_never_fails (gpow : ℚ → ℚ) (input : List ℕ)
    (width height : ℕ) (pattern : String)
    (whitelevels blacklevels : List ℕ) (wb_coeffs : List ℚ) (out : List ℕ)
    (h : demosaic_bilinear gpow input width height pattern whitelevels
      blacklevels wb_coeffs = some out) :
    out.length = width * height * 3 ∧
      imageBuffer_from_raw width height out = some out := by
  obtain ⟨gr, gg, gb, blr, blg, blb, wlr, wlg, wlb,
    _, _, _, _, _, _, _, _, _, hout⟩ := demosaic_bilinear_some_elim h
  subst hout
  constructor
  · simp
  · rw [imageBuffer_from_raw, if_pos (by simp)]

/-- Witness for C10: the 1×1 mosaic, whose demosaic is the all-border
buffer `[0, 0, 0]`. -/
theorem C10_from_raw_never_fails_witness :
    ([0, 0, 0] : List ℕ).length = 1 * 1 * 3 ∧
      imageBuffer_from_raw 1 1 [0, 0, 0] = some [0, 0, 0] := by
  have heval : demosaic_bilinear id [0] 1 1 "RGGB" [1, 1, 1] [0, 0, 0]
      [1, 1, 1] = some [0, 0, 0] := by decide
  exact C10_from_raw_never_fails id [0] 1 1 "RGGB" [1, 1, 1] [0, 0, 0]
    [1, 1, 1] [0, 0, 0] heval

/-- The 4×4 uniform mosaic (value 1000 everywhere) used against the unknown
pattern `"XXXX"`. -/
def lumMosaic : List ℕ := List.replicate 16 1000

/-- Counterexample to claim C3: With an unknown pattern the code replicates the
site value to all three channels, but the per-channel conditioning still uses
per-channel calibration: with white levels `(1000, 2000, 1000)` and black
levels `(0, 1000, 0)` the interior pixel `(1,1)` of the uniform mosaic gets
`R = 255` but `G = 0`, so R, G, B are not equal for this calibration input.
Only `powf` at `0` and `1` — where it is exact — is involved, so the gamma
is instantiated with `id`. -/
theorem C3_counterexample :
    outAt (demosaic_bilinear id lumMosaic 4 4 "XXXX"
        [1000, 2000, 1000, 1000] [0, 1000, 0, 0] [1, 1, 1, 1]) 15 =
          some 255 ∧
      outAt (demosaic_bilinear id lumMosaic 4 4 "XXXX"
        [1000, 2000, 1000, 1000] [0, 1000, 0, 0] [1, 1, 1, 1]) 16 =
          some 0 := by
  have hrgb : demosaicRGB lumMosaic 4 4 "XXXX" 1 1 =
      some (1000, 1000, 1000) := by
    norm_num [demosaicRGB, getQ, lumMosaic]
  have hmap := demosaic_bilinear_eq_map' id lumMosaic 4 4 "XXXX"
    [1000, 2000, 1000, 1000] [0, 1000, 0, 0] [1, 1, 1, 1] 1 1 1
    0 1000 0 1000 2000 1000 rfl rfl rfl rfl rfl rfl rfl rfl rfl
    (by norm_num [lumMosaic])
  rw [hmap]
  constructor
  · rw [outAt_map_range (by norm_num)]
    unfold byteAt
    rw [if_pos (by norm_num)]
    norm_num only []
    rw [hrgb, Option.map_some']
    simp only [byteOfRGB]
    rw [if_pos (by norm_num)]
    norm_num [f32_as_u8]
  · rw [outAt_map_range (by norm_num)]
    unfold byteAt
    rw [if_pos (by norm_num)]
    norm_num only []
    rw [hrgb, Option.map_some']
    simp only [byteOfRGB]
    rw [if_neg (by norm_num), if_pos (by norm_num)]
    norm_num [f32_as_u8]

/-- Amended claim C3: For every mosaic whose pattern is neither `"RGGB"` nor
`"BGGR"`, `demosaic_bilinear` treats each site as luminance: the interpolated
triple at every site replicates the site's own sample to R, G and B before
per-channel conditioning, so the three color channels are equal at the
interpolation stage.  Equality of the final bytes is not claimed: it fails
under per-channel calibration (the counterexample above), and even under
channel-uniform calibration the three `f32` matrix rows
`1.6t - 0.3t - 0.3t`, `-0.2t + 1.4t - 0.2t` and `-0.1t - 0.3t + 1.4t` agree
only in exact arithmetic — their rounded values can differ by one ulp, which
quantization can turn into output bytes differing by one. -/
theorem C3_unknown_pattern_luminance (input : List ℕ)
    (width height : ℕ) (pattern : String)
    (hp1 : pattern ≠ "RGGB") (hp2 : pattern ≠ "BGGR") (x y : ℕ) :
    demosaicRGB input width height pattern x y =
      ((getQ input width height x y).map fun val => (val, val, val)) ∧
    ∀ r g b : ℚ, demosaicRGB input width height pattern x y =
      some (r, g, b) → r = g ∧ g = b := by
  have hrep : demosaicRGB input width height pattern x y =
      (getQ input width height x y).map fun val => (val, val, val) := by
    simp only [demosaicRGB]
    rw [if_neg hp1, if_neg hp2]
    cases getQ input width height x y <;> rfl
  refine ⟨hrep, ?_⟩
  intro r g b h
  rw [hrep] at h
  cases hg : getQ input width height x y with
  | none => rw [hg] at h; exact Option.noConfusion h
  | some v =>
    rw [hg, Option.map_some', Option.some_inj] at h
    simp only [Prod.mk.injEq] at h
    obtain ⟨h1, h2, h3⟩ := h
    exact ⟨h1.symm.trans h2, h2.symm.trans h3⟩

/-- Witness for C3 (amended): on the uniform mosaic with the unknown pattern
`"XXXX"`, the triple at site `(1,1)` is the site's sample replicated, with
all three channels equal. -/
theorem C3_unknown_pattern_luminance_witness :
    (demosaicRGB lumMosaic 4 4 "XXXX" 1 1 =
      ((getQ lumMosaic 4 4 1 1).map fun val => (val, val, val))) ∧
    ∀ r g b : ℚ, demosaicRGB lumMosaic 4 4 "XXXX" 1 1 = some (r, g, b) →
      r = g ∧ g = b :=
  C3_unknown_pattern_luminance lumMosaic 4 4 "XXXX" (by decide) (by decide) 1 1
